import Mathlib

/-!
# fio-prometheus-exporter: a shallow embedding and its verified properties

The exporter polls FIO nodeos endpoints and republishes what it reads as
Prometheus gauges.  This file embeds the four Go source files

* `client.go`   (the `target` type and its fetch methods),
* `metrics.go`  (the endpoint cache and the seven aggregator loops),
* `init.go`     (flag handling and capability probing),
* `fio-prometheus-exporter.go` (`updateHost`),

as pure Lean functions, and proves properties of them.

Conventions of the embedding.

* Every remote call goes through `target.api`.  A value of type `API` fixes what
  the node answers to each call; a fetch method returns its Go result together
  with the list of calls it issued, so "no I/O happened" is the statement that
  this list is empty.
* `time.Now()` is an input: a function takes `clock : Nat → Time`, whose value at
  `k` is the `k`-th reading the call takes.
* A Go pointer that may be `nil` is an `Option`.
* A channel receive loop is a function of the list of `select` outcomes.
* A Go run-time panic is the `Result.panic` outcome.
-/

namespace Exporter

/-! ## Time -/

/-- A wall-clock instant in UTC, as nanoseconds since the Unix epoch
(`time.Time` after `.UTC()`, which drops the monotonic reading). -/
abbrev Time := Int

/-- The constant `time.Minute`, a `time.Duration` in nanoseconds. -/
def Minute : Int := 60 * 1000000000

/-- The method `Time.Add`. -/
def Time.Add (t : Time) (d : Int) : Time := t + d

/-- The method `Time.Before`: strictly earlier. -/
def Time.Before (t u : Time) : Bool := decide (t < u)

/-- The method `Time.Unix`: whole seconds since the epoch. -/
def Time.Unix (t : Time) : Int := t / 1000000000

/-! ## Errors and results -/

/-- The error values of `client.go`.  `NotMonitoredErr` and `NullErr` are the two
error types the package declares; `other` stands for every other `error`
(transport, decoding, parsing). -/
inductive Err where
  | NotMonitoredErr (Api : String)
  | NullErr
  | other (msg : String)
  deriving DecidableEq, Repr

/-- The outcome of a Go function returning `(T, error)` that may also panic. -/
inductive Result (α : Type) where
  | ok (a : α)
  | err (e : Err)
  | panic (msg : String)
  deriving DecidableEq, Repr

/-- A `float64`.  Every `float64` the exporter computes is the conversion of an
integer or a counter incremented by one, all exact below `2^53`; the one value
read as floating point, `max_transaction_time`, is only passed through.  The
embedding therefore carries the integer. -/
abbrev float64 := Int

/-! ## The remote node -/

/-- The calls a target can issue through its RPC handle. -/
inductive Rpc where
  | GetInfo
  | GetNetConnections
  | IsProducerPaused
  | GetRuntimeOptions
  | GetFioProducers
  | GetProducerSchedule
  | GetDBSize
  deriving DecidableEq, Repr

/-- The fields of `fio-go`'s `get_info` response that `target.info` reads. -/
structure InfoResp where
  HeadBlockNum : Nat
  LastIrreversibleBlockNum : Nat
  /-- The value of `HeadBlockTime.Unix()`. -/
  HeadBlockTime : Int
  ChainID : String
  ServerVersionString : String
  deriving DecidableEq, Repr

/-- One element of the `GetNetConnections` response. -/
structure Connection where
  Connecting : Bool
  Syncing : Bool
  deriving DecidableEq, Repr

/-- One element of `GetFioProducers().Producers`.  `IsActive` is an unsigned
integer in `fio-go`. -/
structure Producer where
  FioAddress : String
  TotalVotes : String
  IsActive : Nat
  LastClaimTime : String
  deriving DecidableEq, Repr

/-- The three version numbers of the `GetProducerSchedule` response. -/
structure Schedule where
  Active : Nat
  Pending : Nat
  Proposed : Nat
  deriving DecidableEq, Repr

/-- The `GetDBSize` response. -/
structure DBSize where
  FreeBytes : Nat
  UsedBytes : Nat
  deriving DecidableEq, Repr

/-- The RPC handle `*fio.API`: its base URL and what the node answers to each
call.  `GetRuntimeOptions` is the raw HTTP POST to
`/v1/producer/get_runtime_options` followed by the JSON decoding of
`max_transaction_time`. -/
structure API where
  BaseURL : String
  GetInfo : Except Err InfoResp
  GetNetConnections : Except Err (List Connection)
  IsProducerPaused : Except Err Bool
  GetRuntimeOptions : Except Err float64
  GetFioProducers : Except Err (List Producer)
  GetProducerSchedule : Except Err Schedule
  GetDBSize : Except Err DBSize

/-- What the embedding takes from outside the repository: the width of the Go
`int`, the standard library's `time.Parse` for the layout
`2006-01-02T15:04:05.999` (the parsed instant, or `none` for a parse error), and
the two chain identifiers exported by `fio-go`. -/
structure Env where
  intSize : Nat
  timeParse : String → Option Time
  ChainIdMainnet : String
  ChainIdTestnet : String

/-! ## `client.go` -/

/-- The struct `target`. -/
structure target where
  hasNet : Bool
  hasProducer : Bool
  hasDb : Bool
  last : Time
  host : String
  api : API

/-- The struct `infoUpdate`. -/
structure infoUpdate where
  Head : float64
  Lib : float64
  Delta : float64
  ChainId : String
  Endpoint : String
  Version : String
  Url : String
  deriving DecidableEq, Repr

/-- The struct `netUpdate`. -/
structure netUpdate where
  Connected : float64
  Disconnected : float64
  Syncing : float64
  Endpoint : String
  Url : String
  deriving DecidableEq, Repr

/-- The struct `paused`. -/
structure paused where
  Active : float64
  Endpoint : String
  Url : String
  deriving DecidableEq, Repr

/-- The struct `runUpdate`. -/
structure runUpdate where
  MaxTx : float64
  Endpoint : String
  Url : String
  deriving DecidableEq, Repr

/-- The struct `prodUpdate`. -/
structure prodUpdate where
  Active : float64
  Claim : float64
  Rank : float64
  Votes : float64
  Top : float64
  Producer : String
  Endpoint : String
  Url : String
  deriving DecidableEq, Repr

/-- The struct `schedUpdate`. -/
structure schedUpdate where
  Active : float64
  Pending : float64
  Proposed : float64
  Endpoint : String
  Url : String
  deriving DecidableEq, Repr

/-- The struct `dbUpdate`. -/
structure dbUpdate where
  Free : float64
  Used : float64
  Endpoint : String
  Url : String
  deriving DecidableEq, Repr

/-- The method `target.check`: one probing call; the flag is set when the call
succeeds, and an unknown name only logs. -/
def target.check (t : target) (endpoint : String) : target × List Rpc :=
  if endpoint = "producer" then
    match t.api.IsProducerPaused with
    | .error _ => (t, [Rpc.IsProducerPaused])
    | .ok _ => ({ t with hasProducer := true }, [Rpc.IsProducerPaused])
  else if endpoint = "net" then
    match t.api.GetNetConnections with
    | .error _ => (t, [Rpc.GetNetConnections])
    | .ok _ => ({ t with hasNet := true }, [Rpc.GetNetConnections])
  else if endpoint = "db" then
    match t.api.GetDBSize with
    | .error _ => (t, [Rpc.GetDBSize])
    | .ok _ => ({ t with hasDb := true }, [Rpc.GetDBSize])
  else (t, [])

/-- The method `target.info`.  It returns the target with `last` refreshed. -/
def target.info (env : Env) (t : target) (clock : Nat → Time) :
    Except Err infoUpdate × target × List Rpc :=
  match t.api.GetInfo with
  | .error e => (.error e, t, [Rpc.GetInfo])
  | .ok i =>
    let chain :=
      if i.ChainID = env.ChainIdMainnet then "mainnet"
      else if i.ChainID = env.ChainIdTestnet then "testnet"
      else i.ChainID
    (.ok { Head := i.HeadBlockNum
           Lib := i.LastIrreversibleBlockNum
           Delta := (clock 1).Unix - i.HeadBlockTime
           ChainId := chain
           Endpoint := t.host
           Version := i.ServerVersionString
           Url := t.api.BaseURL },
     { t with last := clock 0 }, [Rpc.GetInfo])

/-- The three counters of `target.net` after the `range` loop over the
connections. -/
def netCount : List Connection → float64 × float64 × float64 → float64 × float64 × float64
  | [], acc => acc
  | c :: cs, (connected, disconnected, syncing) =>
    let (connected', disconnected') :=
      if c.Connecting then (connected, disconnected + 1) else (connected + 1, disconnected)
    let syncing' := if c.Syncing then syncing + 1 else syncing
    netCount cs (connected', disconnected', syncing')

/-- The method `target.net`. -/
def target.net (t : target) : Except Err netUpdate × List Rpc :=
  if !t.hasNet then (.error (Err.NotMonitoredErr "net"), [])
  else
    match t.api.GetNetConnections with
    | .error e => (.error e, [Rpc.GetNetConnections])
    | .ok n =>
      let (connected, disconnected, syncing) := netCount n (0, 0, 0)
      (.ok { Connected := connected
             Disconnected := disconnected
             Syncing := syncing
             Endpoint := t.host
             Url := t.api.BaseURL }, [Rpc.GetNetConnections])

/-- The method `target.runtime`. -/
def target.runtime (t : target) : Except Err runUpdate × List Rpc :=
  if !t.hasProducer then (.error (Err.NotMonitoredErr "producer"), [])
  else
    match t.api.GetRuntimeOptions with
    | .error e => (.error e, [Rpc.GetRuntimeOptions])
    | .ok mtt =>
      (.ok { MaxTx := mtt, Endpoint := t.host, Url := t.api.BaseURL }, [Rpc.GetRuntimeOptions])

/-- The method `target.paused`. -/
def target.paused (t : target) : Except Err paused × List Rpc :=
  if !t.hasProducer then (.error (Err.NotMonitoredErr "producer"), [])
  else
    match t.api.IsProducerPaused with
    | .error e => (.error e, [Rpc.IsProducerPaused])
    | .ok p =>
      if p then (.error Err.NullErr, [Rpc.IsProducerPaused])
      else (.ok { Active := 1, Endpoint := t.host, Url := t.api.BaseURL }, [Rpc.IsProducerPaused])

/-- The method `target.schedule`. -/
def target.schedule (t : target) : Except Err schedUpdate × List Rpc :=
  match t.api.GetProducerSchedule with
  | .error e => (.error e, [Rpc.GetProducerSchedule])
  | .ok s =>
    (.ok { Active := s.Active
           Pending := s.Pending
           Proposed := s.Proposed
           Endpoint := t.host
           Url := t.api.BaseURL }, [Rpc.GetProducerSchedule])

/-- The method `target.db`. -/
def target.db (t : target) : Except Err dbUpdate × List Rpc :=
  if !t.hasDb then (.error (Err.NotMonitoredErr "db"), [])
  else
    match t.api.GetDBSize with
    | .error e => (.error e, [Rpc.GetDBSize])
    | .ok d =>
      (.ok { Free := d.FreeBytes, Used := d.UsedBytes, Endpoint := t.host, Url := t.api.BaseURL },
       [Rpc.GetDBSize])

/-! ### `target.producers` -/

/-- The value of an ASCII decimal digit (`ch -= '0'; if ch > 9` fails). -/
def digitVal (c : Char) : Option Nat :=
  if 48 ≤ c.toNat ∧ c.toNat ≤ 57 then some (c.toNat - 48) else none

/-- The digit loop of the standard library's integer parser: `n = n*10 + d`,
failing at the first character that is not a digit. -/
def parseDigits : List Char → Nat → Option Nat
  | [], n => some n
  | c :: cs, n =>
    match digitVal c with
    | none => none
    | some d => parseDigits cs (n * 10 + d)

/-- The standard library's `strconv.Atoi` for an `int` of `intSize` bits: an
optional sign, then at least one decimal digit and nothing else, and the value
must lie in `[-2^(intSize-1), 2^(intSize-1) - 1]`. -/
def Atoi (intSize : Nat) (s : String) : Except Err Int :=
  match s.data with
  | [] => .error (Err.other "strconv.Atoi")
  | c :: rest =>
    let neg := c = '-'
    let body := if c = '-' ∨ c = '+' then rest else c :: rest
    if body = [] then .error (Err.other "strconv.Atoi")
    else
      match parseDigits body 0 with
      | none => .error (Err.other "strconv.Atoi")
      | some un =>
        if neg then
          if un > 2 ^ (intSize - 1) then .error (Err.other "strconv.Atoi") else .ok (-(un : Int))
        else
          if un ≥ 2 ^ (intSize - 1) then .error (Err.other "strconv.Atoi") else .ok (un : Int)

/-- The expression `strings.Split(s, ".")[0]`: what precedes the first dot, or
all of `s` when it has none. -/
def splitDotHead (s : String) : String := ⟨s.data.takeWhile (fun c => c != '.')⟩

/-- The body of the `for i := range p.Producers` loop of `target.producers`,
from index `i` on, over the slice `update` allocated before the loop.  Storing
at an index outside `update` is the run-time panic of Go. -/
def producersLoop (env : Env) (t : target) (clock : Nat → Time) :
    Nat → List Producer → List (Option prodUpdate) → Result (List (Option prodUpdate))
  | _, [], update => .ok update
  | i, p :: ps, update =>
    match env.timeParse p.LastClaimTime with
    | none => .err (Err.other "time.Parse")
    | some lct =>
      match Atoi env.intSize (splitDotHead p.TotalVotes) with
      | .error e => .err e
      | .ok votes =>
        let isTop : float64 := if i < 21 ∧ p.IsActive > 0 then 1 else 0
        if i < update.length then
          producersLoop env t clock (i + 1) ps
            (update.set i (some
              { Active := p.IsActive
                Top := isTop
                Claim := (clock i).Unix - lct.Unix
                Rank := ((i + 1 : Nat) : Int)
                Votes := votes.tdiv 1000000000
                Producer := p.FioAddress
                Endpoint := t.host
                Url := t.api.BaseURL }))
        else .panic "index out of range"

/-- The method `target.producers`. -/
def target.producers (env : Env) (t : target) (clock : Nat → Time) :
    Result (List (Option prodUpdate)) × List Rpc :=
  match t.api.GetFioProducers with
  | .error e => (.err e, [Rpc.GetFioProducers])
  | .ok p =>
    let prodCount := if p.length > 42 then 42 else p.length
    (producersLoop env t clock 0 p (List.replicate prodCount none), [Rpc.GetFioProducers])

/-! ## `metrics.go`: the endpoint cache -/

/-- The struct `endpointInfo`. -/
structure endpointInfo where
  ChainId : String
  Version : String
  updated : Time
  deriving DecidableEq, Repr

/-- A Go `map[string]*endpointInfo`, as the list of its key/value pairs.  A map
holds each key once; `KeysNodup` says so of a list. -/
abbrev EndpointMap := List (String × endpointInfo)

/-- No key occurs twice. -/
def KeysNodup (m : EndpointMap) : Prop := (m.map Prod.fst).Nodup

instance (m : EndpointMap) : Decidable (KeysNodup m) := by
  unfold KeysNodup; infer_instance

/-- The index expression `m[k]` (`nil` when the key is absent). -/
def mapGet (m : EndpointMap) (k : String) : Option endpointInfo :=
  match m with
  | [] => none
  | (k', v) :: rest => if k' = k then some v else mapGet rest k

/-- The builtin `delete(m, k)`. -/
def mapDelete (m : EndpointMap) (k : String) : EndpointMap :=
  m.filter (fun kv => decide (kv.1 ≠ k))

/-- The assignment `m[k] = v`. -/
def mapSet (m : EndpointMap) (k : String) (v : endpointInfo) : EndpointMap :=
  (k, v) :: mapDelete m k

/-- The struct `endpoints`; `entries` is its field `endpoints`, the map.  The
lock has no counterpart here: every method holds it for its whole body. -/
structure endpoints where
  entries : EndpointMap
  deriving DecidableEq, Repr

/-- The method `endpoints.get`. -/
def endpoints.get (ep : endpoints) (s : String) : Option endpointInfo :=
  mapGet ep.entries s

/-- The method `endpoints.set`, at clock reading `now`. -/
def endpoints.set (ep : endpoints) (name : String) (info : endpointInfo) (now : Time) :
    endpoints :=
  ⟨mapSet ep.entries name { info with updated := now }⟩

/-- The `range` loop of `endpoints.scrub`: `todo` are the entries still to be
visited, `m` the map as it stands, and `clock i` what `time.Now()` returns at
the `i`-th entry. -/
def scrubLoop (clock : Nat → Time) : Nat → EndpointMap → EndpointMap → EndpointMap
  | _, [], m => m
  | i, (k, v) :: todo, m =>
    if v.updated.Before (((clock i)).Add (-10 * Minute)) then
      scrubLoop clock (i + 1) todo (mapDelete m k)
    else
      scrubLoop clock (i + 1) todo m

/-- The method `endpoints.scrub`.  The entries are visited in the order of the
list, which is any order, as in Go. -/
def endpoints.scrub (ep : endpoints) (clock : Nat → Time) : endpoints :=
  ⟨scrubLoop clock 0 ep.entries ep.entries⟩

/-! ## `metrics.go`: the aggregators -/

/-- The label map handed to `GaugeVec.With`. -/
structure Labels where
  chain_id : String
  version : String
  endpoint : String
  producer : Option String
  deriving DecidableEq, Repr

/-- One call `gauge.With(l).Set(v)`, the gauge given by its metric name. -/
structure Sample where
  gauge : String
  labels : Labels
  value : float64
  deriving DecidableEq, Repr

/-- The package-level state the aggregators work on: the cache `ep`, the
samples written to the gauges so far, and the lines logged so far. -/
structure Registry where
  ep : endpoints
  samples : List Sample
  log : List String
  deriving DecidableEq, Repr

/-- The outcome of one `select` of an aggregator loop: the case `<-ctx.Done()`
was taken, or a (possibly nil) update was received. -/
inductive Select (α : Type) where
  | done
  | recv (u : Option α)
  deriving DecidableEq, Repr

/-- The labels `chain_id`, `version`, `endpoint` of a cached endpoint. -/
def stdLabels (h : endpointInfo) (endpoint : String) : Labels :=
  { chain_id := h.ChainId, version := h.Version, endpoint := endpoint, producer := none }

/-- An append to the log. -/
def Registry.println (r : Registry) (line : String) : Registry :=
  { r with log := r.log ++ [line] }

/-- Appends to the gauges. -/
def Registry.write (r : Registry) (ss : List Sample) : Registry :=
  { r with samples := r.samples ++ ss }

/-- The function `processInfo`, run over the successive outcomes of its
`select`; `clock i` is what `time.Now()` returns inside `ep.set` at the `i`-th
outcome.  The Boolean tells whether the function returned. -/
def processInfo (clock : Nat → Time) : Nat → List (Select infoUpdate) → Registry → Registry × Bool
  | _, [], r => (r, false)
  | _, .done :: _, r => (r.println "processInfo routine exiting", true)
  | i, .recv none :: evs, r => processInfo clock (i + 1) evs r
  | i, .recv (some u) :: evs, r =>
    let l : Labels :=
      { chain_id := u.ChainId, version := u.Version, endpoint := u.Endpoint, producer := none }
    let r1 : Registry :=
      { r with ep := r.ep.set u.Url { ChainId := u.ChainId, Version := u.Version, updated := clock i }
                      (clock i) }
    processInfo clock (i + 1) evs
      (r1.write [⟨"fio_info_head_block", l, u.Head⟩, ⟨"fio_info_lib", l, u.Lib⟩,
                 ⟨"fio_info_head_lag", l, u.Delta⟩])

/-- The function `processNet`. -/
def processNet : List (Select netUpdate) → Registry → Registry × Bool
  | [], r => (r, false)
  | .done :: evs, r => processNet evs (r.println "processNet routine exiting")
  | .recv none :: evs, r => processNet evs r
  | .recv (some u) :: evs, r =>
    match r.ep.get u.Url with
    | none => processNet evs (r.println ("could not get host info for net update: " ++ u.Url))
    | some h =>
      let l := stdLabels h u.Endpoint
      processNet evs
        (r.write [⟨"fio_net_connected_peers", l, u.Connected⟩,
                  ⟨"fio_net_disconnected_peers", l, u.Disconnected⟩,
                  ⟨"fio_net_syncing_peers", l, u.Syncing⟩])

/-- The function `processPaused`. -/
def processPaused : List (Select paused) → Registry → Registry × Bool
  | [], r => (r, false)
  | .done :: evs, r => processPaused evs (r.println "processRun routine exiting")
  | .recv none :: evs, r => processPaused evs r
  | .recv (some u) :: evs, r =>
    match r.ep.get u.Url with
    | none =>
      processPaused evs (r.println ("could not get host info for runtime update: " ++ u.Url))
    | some h =>
      processPaused evs (r.write [⟨"fio_producer_producing", stdLabels h u.Endpoint, u.Active⟩])

/-- The function `processRun`. -/
def processRun : List (Select runUpdate) → Registry → Registry × Bool
  | [], r => (r, false)
  | .done :: evs, r => processRun evs (r.println "processRun routine exiting")
  | .recv none :: evs, r => processRun evs r
  | .recv (some u) :: evs, r =>
    match r.ep.get u.Url with
    | none =>
      processRun evs (r.println ("could not get host info for runtime update: " ++ u.Url))
    | some h =>
      processRun evs
        (r.write [⟨"fio_runtime_max_transaction_time", stdLabels h u.Endpoint, u.MaxTx⟩])

/-- The function `processProd`. -/
def processProd : List (Select prodUpdate) → Registry → Registry × Bool
  | [], r => (r, false)
  | .done :: evs, r => processProd evs (r.println "processProd routine exiting")
  | .recv none :: evs, r => processProd evs r
  | .recv (some u) :: evs, r =>
    match r.ep.get u.Url with
    | none =>
      processProd evs (r.println ("could not get host info for producer update: " ++ u.Endpoint))
    | some h =>
      let l : Labels :=
        { chain_id := h.ChainId, version := h.Version, endpoint := u.Endpoint,
          producer := some u.Producer }
      processProd evs
        (r.write [⟨"fio_producer_is_active", l, u.Active⟩, ⟨"fio_producer_is_top21", l, u.Top⟩,
                  ⟨"fio_producer_last_bpclaim_delta", l, u.Claim⟩,
                  ⟨"fio_producer_rank", l, u.Rank⟩, ⟨"fio_producer_votes", l, u.Votes⟩])

/-- The function `processSched`. -/
def processSched : List (Select schedUpdate) → Registry → Registry × Bool
  | [], r => (r, false)
  | .done :: evs, r => processSched evs (r.println "processSched routine exiting")
  | .recv none :: evs, r => processSched evs r
  | .recv (some u) :: evs, r =>
    match r.ep.get u.Url with
    | none =>
      processSched evs (r.println ("could not get host info for schedule update: " ++ u.Url))
    | some h =>
      let l := stdLabels h u.Endpoint
      processSched evs
        (r.write [⟨"fio_producer_schedule_active", l, u.Active⟩,
                  ⟨"fio_producer_schedule_pending", l, u.Pending⟩,
                  ⟨"fio_producer_schedule_proposed", l, u.Proposed⟩])

/-- The function `processDb`. -/
def processDb : List (Select dbUpdate) → Registry → Registry × Bool
  | [], r => (r, false)
  | .done :: evs, r => processDb evs (r.println "processRun routine exiting")
  | .recv none :: evs, r => processDb evs r
  | .recv (some u) :: evs, r =>
    match r.ep.get u.Url with
    | none =>
      processDb evs (r.println ("could not get host info for runtime update: " ++ u.Url))
    | some h =>
      let l := stdLabels h u.Endpoint
      processDb evs
        (r.write [⟨"fio_db_free_bytes", l, u.Free⟩, ⟨"fio_db_used_bytes", l, u.Used⟩])

/-! ## `init.go` -/

/-- The zero value of `time.Time` (1 January of year 1), the initial `last`. -/
def zeroTime : Time := -62135596800 * 1000000000

/-- The function `newTarget`.  `dial` is `fio.NewConnection` (the handle, or the
connection error) and `hostname` is `url.Parse(u)` followed by `Hostname()`. -/
def newTarget (dial : String → Except Err API) (hostname : String → String) (u : String) :
    Except Err target :=
  match dial u with
  | .error e => .error e
  | .ok api =>
    .ok { hasNet := false, hasProducer := false, hasDb := false, last := zeroTime,
          host := hostname u, api := api }

/-- One clause of a Go expression `switch`: the `case` value, the body, and
whether the body ends in `fallthrough`. -/
structure Clause (α : Type) where
  value : Bool
  body : α
  fallsThrough : Bool

/-- The bodies executed once control has entered the first clause of the list:
its body, and the following ones as long as each ends in `fallthrough`. -/
def enterClause {α : Type} : List (Clause α) → List α
  | [] => []
  | c :: rest => c.body :: (if c.fallsThrough then enterClause rest else [])

/-- The bodies executed by `switch tag { ... }`: control enters the first clause
whose `case` value equals the tag. -/
def switchOn {α : Type} (tag : Bool) : List (Clause α) → List α
  | [] => []
  | c :: rest => if c.value = tag then enterClause (c :: rest) else switchOn tag rest

/-- The three flags `-no-producer`, `-no-db`, `-no-net`. -/
structure Flags where
  skipProd : Bool
  skipDb : Bool
  skipNet : Bool
  deriving DecidableEq, Repr

/-- The arguments of the `t.check` calls that the `switch false` of `init`
executes, in order. -/
def initChecks (f : Flags) : List String :=
  switchOn false
    [ ⟨f.skipProd, "producer", true⟩,
      ⟨f.skipDb, "db", true⟩,
      ⟨f.skipNet, "net", false⟩ ]

/-- The successive `t.check` calls on one target, with the calls they issue. -/
def runChecks : List String → target → target × List Rpc
  | [], t => (t, [])
  | e :: es, t =>
    let (t1, calls1) := t.check e
    let (t2, calls2) := runChecks es t1
    (t2, calls1 ++ calls2)

/-- The body of the `for _, u := range urls` loop of `init` for one URL: the
target appended to `targets` (none when the connection failed) and the probing
calls issued. -/
def initTarget (dial : String → Except Err API) (hostname : String → String) (f : Flags)
    (u : String) : Option target × List Rpc :=
  match newTarget dial hostname u with
  | .error _ => (none, [])
  | .ok t =>
    let (t1, calls) := runChecks (initChecks f) t
    (some t1, calls)

/-- The slice `targets` after the loop of `init`. -/
def initTargets (dial : String → Except Err API) (hostname : String → String) (f : Flags)
    (urls : List String) : List target :=
  urls.filterMap (fun u => (initTarget dial hostname f u).1)

/-! ## `fio-prometheus-exporter.go` -/

/-- A value sent on one of the seven channels of `channels`. -/
inductive Msg where
  | info (u : infoUpdate)
  | net (u : netUpdate)
  | paused (u : paused)
  | run (u : runUpdate)
  | prod (u : Option prodUpdate)
  | sched (u : schedUpdate)
  | db (u : dbUpdate)
  deriving DecidableEq, Repr

/-- What `updateHost` does, in order: it calls a fetch method of the target
(named as in `client.go`), the method issues a remote call, a value is sent on
its channel, an error is logged, or the goroutine panics. -/
inductive Ev where
  | fetch (method : String)
  | rpc (call : Rpc)
  | send (m : Msg)
  | log (e : Err)
  | panic (msg : String)
  deriving DecidableEq, Repr

/-- One step of `updateHost`: what happened, and whether the function goes on
to its next statement (`false` after a `return` or a panic). -/
abbrev Step := List Ev × Bool

/-- The statements of `updateHost` for `t.net()`. -/
def stepNet (t : target) : Step :=
  let (res, calls) := t.net
  let pre := Ev.fetch "net" :: calls.map Ev.rpc
  match res with
  | .ok net => (pre ++ [Ev.send (Msg.net net)], true)
  | .error (Err.NotMonitoredErr _) => (pre, true)
  | .error e => (pre ++ [Ev.log e], false)

/-- The statements of `updateHost` for `t.paused()`. -/
def stepPaused (t : target) : Step :=
  let (res, calls) := t.paused
  let pre := Ev.fetch "paused" :: calls.map Ev.rpc
  match res with
  | .ok isPaused => (pre ++ [Ev.send (Msg.paused isPaused)], true)
  | .error (Err.NotMonitoredErr _) => (pre, true)
  | .error Err.NullErr => (pre, true)
  | .error e => (pre ++ [Ev.log e], false)

/-- The statements of `updateHost` for `t.runtime()`. -/
def stepRuntime (t : target) : Step :=
  let (res, calls) := t.runtime
  let pre := Ev.fetch "runtime" :: calls.map Ev.rpc
  match res with
  | .ok runtime => (pre ++ [Ev.send (Msg.run runtime)], true)
  | .error (Err.NotMonitoredErr _) => (pre, true)
  | .error e => (pre ++ [Ev.log e], true)

/-- The statements of `updateHost` for `t.producers()`. -/
def stepProducers (env : Env) (t : target) (clock : Nat → Time) : Step :=
  let (res, calls) := t.producers env clock
  let pre := Ev.fetch "producers" :: calls.map Ev.rpc
  match res with
  | .ok prods => (pre ++ prods.map (fun u => Ev.send (Msg.prod u)), true)
  | .err (Err.NotMonitoredErr _) => (pre, true)
  | .err e => (pre ++ [Ev.log e], true)
  | .panic msg => (pre ++ [Ev.panic msg], false)

/-- The statements of `updateHost` for `t.schedule()`. -/
def stepSchedule (t : target) : Step :=
  let (res, calls) := t.schedule
  let pre := Ev.fetch "schedule" :: calls.map Ev.rpc
  match res with
  | .ok sched => (pre ++ [Ev.send (Msg.sched sched)], true)
  | .error e => (pre ++ [Ev.log e], true)

/-- The statements of `updateHost` for `t.db()`. -/
def stepDb (t : target) : Step :=
  let (res, calls) := t.db
  let pre := Ev.fetch "db" :: calls.map Ev.rpc
  match res with
  | .ok db => (pre ++ [Ev.send (Msg.db db)], true)
  | .error (Err.NotMonitoredErr _) => (pre, true)
  | .error e => (pre ++ [Ev.log e], true)

/-- Sequential composition: the steps are run in order until one stops. -/
def runSteps : List Step → List Ev
  | [] => []
  | (evs, goesOn) :: rest => evs ++ (if goesOn then runSteps rest else [])

/-- The function `updateHost`: the events of one collection task.  The clock
readings 0 and 1 are those of `t.info()`, the following ones those of
`t.producers()`. -/
def updateHost (env : Env) (t : target) (clock : Nat → Time) : List Ev :=
  match t.info env clock with
  | (.error e, _, calls) => Ev.fetch "info" :: calls.map Ev.rpc ++ [Ev.log e]
  | (.ok info, t1, calls) =>
    Ev.fetch "info" :: calls.map Ev.rpc ++ [Ev.send (Msg.info info)] ++
      runSteps
        [ stepNet t1, stepPaused t1, stepRuntime t1,
          stepProducers env t1 (fun i => clock (i + 2)),
          stepSchedule t1, stepDb t1 ]

/-! ## Vocabulary of the statements -/

/-- The update `target.producers` stores for the record `p` at index `i`, once
its claim time parsed to `lct` and its votes to `votes`. -/
def expectedUpdate (t : target) (clock : Nat → Time) (i : Nat) (p : Producer) (lct : Time)
    (votes : Int) : prodUpdate :=
  { Active := p.IsActive
    Top := if i < 21 ∧ p.IsActive > 0 then 1 else 0
    Claim := (clock i).Unix - lct.Unix
    Rank := ((i + 1 : Nat) : Int)
    Votes := votes.tdiv 1000000000
    Producer := p.FioAddress
    Endpoint := t.host
    Url := t.api.BaseURL }

/-- A producer record is well formed when its claim time parses and the part of
its vote count before the first dot is an integer that fits an `int`. -/
def WellFormed (env : Env) (p : Producer) : Prop :=
  (∃ lct, env.timeParse p.LastClaimTime = some lct) ∧
  (∃ votes, Atoi env.intSize (splitDotHead p.TotalVotes) = .ok votes)

/-- The decimal numeral with the digits `ds` (most significant first), preceded
by a minus sign when `neg`. -/
def numeral (neg : Bool) (ds : List Nat) : List Char :=
  (if neg then ['-'] else []) ++ ds.map Nat.digitChar

/-- The integer a decimal numeral denotes. -/
def numeralValue (neg : Bool) (ds : List Nat) : Int :=
  if neg then -((Nat.ofDigits 10 ds.reverse : Nat) : Int) else ((Nat.ofDigits 10 ds.reverse : Nat) : Int)

/-- An entry stays through a scrub at `now` when it is not strictly older than
ten minutes. -/
def keeps (now : Time) (kv : String × endpointInfo) : Bool :=
  !(kv.2.updated.Before (now.Add (-10 * Minute)))

/-! ## Sample inputs -/

/-- A 64-bit environment whose `time.Parse` knows one instant, 1 March 2021. -/
def sampleEnv : Env :=
  { intSize := 64
    timeParse := fun s => if s = "2021-03-01T00:00:00" then some 1614556800000000000 else none
    ChainIdMainnet := "21dcae42c0182200e93f954a074011f9048a7624c6fe81d3c9541a614a88bd1c"
    ChainIdTestnet := "b20901380af44ef59c5918439a1f9a41d83669020319a80574b804a5f95cbd7e" }

/-- A clock standing at 1 March 2021, 00:01:00. -/
def sampleClock : Nat → Time := fun _ => 1614556860000000000

/-- A node that answers every call, with one connecting peer, production not
paused, and no producers. -/
def sampleApi : API :=
  { BaseURL := "http://node1:8888"
    GetInfo := .ok ⟨1000, 990, 1614556858, "abcd", "v3.5.0"⟩
    GetNetConnections := .ok [⟨true, false⟩]
    IsProducerPaused := .ok false
    GetRuntimeOptions := .ok 30
    GetFioProducers := .ok []
    GetProducerSchedule := .ok ⟨7, 7, 0⟩
    GetDBSize := .ok ⟨2000, 1000⟩ }

/-- A target of `sampleApi` as `newTarget` builds it, no capability probed. -/
def sampleTarget : target :=
  { hasNet := false, hasProducer := false, hasDb := false, last := zeroTime,
    host := "node1", api := sampleApi }

/-- The sample target, its node returning the producer records `recs`. -/
def targetWithProducers (recs : List Producer) : target :=
  { sampleTarget with api := { sampleApi with GetFioProducers := .ok recs } }

/-- A well-formed producer record with the given active flag and vote count. -/
def sampleProducer (active : Nat) (votes : String) : Producer :=
  { FioAddress := "bp@fio", TotalVotes := votes, IsActive := active,
    LastClaimTime := "2021-03-01T00:00:00" }

/-- Fifty well-formed producer records. -/
def fiftyProducers : List Producer :=
  List.replicate 50 (sampleProducer 1 "12345000000000.5000")

/-- Twenty-six well-formed producer records, all active but the one at index 5. -/
def twentySixProducers : List Producer :=
  (List.range 26).map (fun i => sampleProducer (if i = 5 then 0 else 1) "1999999999.9")

/-- The two records of the vote examples. -/
def voteExamples : List Producer :=
  [sampleProducer 1 "12345000000000.5000", sampleProducer 1 "1999999999.9"]

/-- The sample target with every capability flag set, as after a probing in
which every call succeeded. -/
def probedTarget (api : API) : target :=
  { hasNet := true, hasProducer := true, hasDb := true, last := zeroTime,
    host := "node1", api := api }

/-- A node with three peers: one connecting and syncing, one connected and
syncing, one connected. -/
def threePeersApi : API :=
  { sampleApi with GetNetConnections := .ok [⟨true, true⟩, ⟨false, true⟩, ⟨false, false⟩] }

/-- A node whose `GetNetConnections` fails with a transport error. -/
def netFailingApi : API :=
  { sampleApi with GetNetConnections := .error (Err.other "connection refused") }

/-- A node whose `IsProducerPaused` fails with a transport error. -/
def pausedFailingApi : API :=
  { sampleApi with IsProducerPaused := .error (Err.other "connection refused") }

/-- A node whose runtime-options request fails with a transport error. -/
def runtimeFailingApi : API :=
  { sampleApi with GetRuntimeOptions := .error (Err.other "connection refused") }

/-- The connection function that reaches `sampleApi` at its URL and nothing
else. -/
def sampleDial : String → Except Err API :=
  fun u => if u = "http://node1:8888" then .ok sampleApi else .error (Err.other "dial")

/-- The host name of the sample URL. -/
def sampleHostname : String → String := fun _ => "node1"

/-- The `infoUpdate` that `target.info` builds from `sampleApi` at
`sampleClock`. -/
def sampleInfo : infoUpdate :=
  { Head := 1000, Lib := 990, Delta := 2, ChainId := "abcd", Endpoint := "node1",
    Version := "v3.5.0", Url := "http://node1:8888" }

/-- The flags of a run started with `-no-db` only. -/
def noDbFlags : Flags := { skipProd := false, skipDb := true, skipNet := false }

/-- A registry with an empty cache, no sample and no log line. -/
def emptyRegistry : Registry := { ep := ⟨[]⟩, samples := [], log := [] }

/-- A registry whose cache knows the sample URL. -/
def cachedRegistry : Registry :=
  { ep := ⟨[("http://node1:8888", ⟨"abcd", "v3.5.0", 1614556860000000000⟩)]⟩,
    samples := [], log := [] }

/-- The labels of the sample endpoint. -/
def sampleLabels : Labels :=
  { chain_id := "abcd", version := "v3.5.0", endpoint := "node1", producer := none }

/-- A `netUpdate` of the sample endpoint. -/
def sampleNet : netUpdate :=
  { Connected := 2, Disconnected := 1, Syncing := 2, Endpoint := "node1",
    Url := "http://node1:8888" }

/-- A `paused` update of the sample endpoint. -/
def samplePaused : paused := { Active := 1, Endpoint := "node1", Url := "http://node1:8888" }

/-- A `runUpdate` of the sample endpoint. -/
def sampleRun : runUpdate := { MaxTx := 30, Endpoint := "node1", Url := "http://node1:8888" }

/-- A `prodUpdate` of the sample endpoint. -/
def sampleProd : prodUpdate :=
  { Active := 1, Claim := 60, Rank := 1, Votes := 12345, Top := 1, Producer := "bp@fio",
    Endpoint := "node1", Url := "http://node1:8888" }

/-- A `schedUpdate` of the sample endpoint. -/
def sampleSched : schedUpdate :=
  { Active := 7, Pending := 7, Proposed := 0, Endpoint := "node1", Url := "http://node1:8888" }

/-- A `dbUpdate` of the sample endpoint. -/
def sampleDb : dbUpdate :=
  { Free := 2000, Used := 1000, Endpoint := "node1", Url := "http://node1:8888" }

/-- The instant at which the sample cache is scrubbed. -/
def scrubTime : Time := 1614556860000000000

/-- A cache with an entry eleven minutes old, an entry exactly ten minutes old
and an entry one minute old at `scrubTime`. -/
def sampleCache : endpoints :=
  ⟨[ ("http://old:8888", ⟨"abcd", "v3.5.0", 1614556200000000000⟩),
     ("http://edge:8888", ⟨"abcd", "v3.5.0", 1614556260000000000⟩),
     ("http://fresh:8888", ⟨"abcd", "v3.5.1", 1614556800000000000⟩) ]⟩

/-! ## Lemmas on `target.producers` -/

theorem producersLoop_cons (env : Env) (t : target) (clock : Nat → Time) (i : Nat)
    (p : Producer) (ps : List Producer) (update : List (Option prodUpdate)) :
    producersLoop env t clock i (p :: ps) update =
      match env.timeParse p.LastClaimTime with
      | none => .err (Err.other "time.Parse")
      | some lct =>
        match Atoi env.intSize (splitDotHead p.TotalVotes) with
        | .error e => .err e
        | .ok votes =>
          if i < update.length then
            producersLoop env t clock (i + 1) ps
              (update.set i (some (expectedUpdate t clock i p lct votes)))
          else .panic "index out of range" := by
  rfl

/-- What a successful run of the loop stores: the slots below `i` are kept,
and the record at offset `j` fills slot `i + j`. -/
theorem producersLoop_ok (env : Env) (t : target) (clock : Nat → Time) :
    ∀ (ps : List Producer) (i : Nat) (update ups : List (Option prodUpdate)),
      producersLoop env t clock i ps update = .ok ups →
      ups.length = update.length ∧
      (∀ k, k < i → ups[k]? = update[k]?) ∧
      (∀ j p, ps[j]? = some p → i + j < update.length ∧
        ∃ lct votes, env.timeParse p.LastClaimTime = some lct ∧
          Atoi env.intSize (splitDotHead p.TotalVotes) = .ok votes ∧
          ups[i + j]? = some (some (expectedUpdate t clock (i + j) p lct votes))) := by
  intro ps
  induction ps with
  | nil =>
    intro i update ups h
    simp only [producersLoop, Result.ok.injEq] at h
    subst h
    simp
  | cons p ps ih =>
    intro i update ups h
    rw [producersLoop_cons] at h
    cases hlct : env.timeParse p.LastClaimTime with
    | none => simp [hlct] at h
    | some lct =>
      cases hvotes : Atoi env.intSize (splitDotHead p.TotalVotes) with
      | error e => simp [hlct, hvotes] at h
      | ok votes =>
        by_cases hi : i < update.length
        · simp only [hlct, hvotes, hi, if_true] at h
          obtain ⟨h1, h2, h3⟩ := ih _ _ _ h
          refine ⟨by simpa using h1, ?_, ?_⟩
          · intro k hk
            rw [h2 k (by omega), List.getElem?_set_ne (by omega)]
          · intro j q hq
            cases j with
            | zero =>
              simp only [List.getElem?_cons_zero, Option.some.injEq] at hq
              subst hq
              refine ⟨by omega, lct, votes, hlct, hvotes, ?_⟩
              rw [Nat.add_zero, h2 i (by omega)]
              simp [hi]
            | succ j =>
              simp only [List.getElem?_cons_succ] at hq
              obtain ⟨hb, lct', votes', e1, e2, e3⟩ := h3 j q hq
              refine ⟨by simp at hb; omega, lct', votes', e1, e2, ?_⟩
              rw [show i + (j + 1) = i + 1 + j by omega]
              exact e3
        · simp [hlct, hvotes, hi] at h

/-- On well-formed records the loop succeeds when the records left fit the
slice, and panics when they do not. -/
theorem producersLoop_wf (env : Env) (t : target) (clock : Nat → Time) :
    ∀ (ps : List Producer) (i : Nat) (update : List (Option prodUpdate)),
      (∀ q ∈ ps, WellFormed env q) → i ≤ update.length →
      (i + ps.length ≤ update.length → ∃ ups, producersLoop env t clock i ps update = .ok ups) ∧
      (update.length < i + ps.length →
        producersLoop env t clock i ps update = .panic "index out of range") := by
  intro ps
  induction ps with
  | nil =>
    intro i update _ hi
    refine ⟨fun _ => ⟨update, rfl⟩, fun h => ?_⟩
    simp at h
    omega
  | cons p ps ih =>
    intro i update hwf hi
    obtain ⟨⟨lct, hlct⟩, ⟨votes, hvotes⟩⟩ := hwf p (List.mem_cons_self _ _)
    have hwf' : ∀ q ∈ ps, WellFormed env q := fun q hq => hwf q (List.mem_cons_of_mem _ hq)
    rw [producersLoop_cons]
    simp only [hlct, hvotes]
    by_cases hlt : i < update.length
    · simp only [hlt, if_true]
      obtain ⟨a, b⟩ := ih (i + 1)
        (update.set i (some (expectedUpdate t clock i p lct votes))) hwf' (by simpa using hlt)
      refine ⟨fun h => a ?_, fun h => b ?_⟩
      · simp only [List.length_cons] at h
        simp only [List.length_set]
        omega
      · simp only [List.length_cons] at h
        simp only [List.length_set]
        omega
    · simp only [hlt, if_false]
      refine ⟨fun h => ?_, fun _ => trivial⟩
      simp only [List.length_cons] at h
      omega

/-- The whole method on at most 42 well-formed records: it succeeds. -/
theorem producers_ok_of_wf (env : Env) (t : target) (clock : Nat → Time)
    (recs : List Producer) (hrecs : t.api.GetFioProducers = .ok recs)
    (hlen : recs.length ≤ 42) (hwf : ∀ q ∈ recs, WellFormed env q) :
    ∃ ups, (t.producers env clock).1 = .ok ups := by
  have hc : ¬ recs.length > 42 := by omega
  simp only [target.producers, hrecs, hc, if_false]
  exact (producersLoop_wf env t clock recs 0 _ hwf (Nat.zero_le _)).1 (by simp)

/-- The whole method on more than 42 well-formed records: it panics. -/
theorem producers_panic_of_wf (env : Env) (t : target) (clock : Nat → Time)
    (recs : List Producer) (hrecs : t.api.GetFioProducers = .ok recs)
    (hlen : 42 < recs.length) (hwf : ∀ q ∈ recs, WellFormed env q) :
    (t.producers env clock).1 = .panic "index out of range" := by
  have hc : recs.length > 42 := hlen
  simp only [target.producers, hrecs, hc, if_true]
  exact (producersLoop_wf env t clock recs 0 _ hwf (Nat.zero_le _)).2 (by simpa using hlen)

/-- The updates of a successful call, record by record. -/
theorem producers_ok_spec (env : Env) (t : target) (clock : Nat → Time)
    (recs : List Producer) (ups : List (Option prodUpdate))
    (hrecs : t.api.GetFioProducers = .ok recs)
    (hok : (t.producers env clock).1 = .ok ups) :
    ups.length = recs.length ∧ recs.length ≤ 42 ∧
    ∀ i p, recs[i]? = some p →
      ∃ lct votes, env.timeParse p.LastClaimTime = some lct ∧
        Atoi env.intSize (splitDotHead p.TotalVotes) = .ok votes ∧
        ups[i]? = some (some (expectedUpdate t clock i p lct votes)) := by
  simp only [target.producers, hrecs] at hok
  obtain ⟨h1, _, h3⟩ := producersLoop_ok env t clock recs 0 _ ups hok
  have hbound : recs.length ≤ 42 := by
    by_contra hgt
    have hgt' : recs.length > 42 := by omega
    obtain ⟨q, hq⟩ : ∃ q, recs[42]? = some q := ⟨recs[42], List.getElem?_eq_getElem hgt'⟩
    have := (h3 42 q hq).1
    simp [hgt'] at this
  have hc : ¬ recs.length > 42 := by omega
  refine ⟨by simpa [hc] using h1, hbound, ?_⟩
  intro i p hp
  obtain ⟨_, lct, votes, e1, e2, e3⟩ := h3 i p hp
  exact ⟨lct, votes, e1, e2, by simpa using e3⟩

/-! ## Lemmas on `strconv.Atoi` -/

theorem digitVal_digitChar (d : Nat) (h : d < 10) : digitVal (Nat.digitChar d) = some d := by
  interval_cases d <;> rfl

theorem digitChar_ne_sign (d : Nat) (h : d < 10) :
    Nat.digitChar d ≠ '-' ∧ Nat.digitChar d ≠ '+' ∧ Nat.digitChar d ≠ '.' := by
  interval_cases d <;> decide

theorem parseDigits_digits (ds : List Nat) (h10 : ∀ d ∈ ds, d < 10) (acc : Nat) :
    parseDigits (ds.map Nat.digitChar) acc
      = some (acc * 10 ^ ds.length + Nat.ofDigits 10 ds.reverse) := by
  induction ds generalizing acc with
  | nil => simp [parseDigits]
  | cons d ds ih =>
    have hd : d < 10 := h10 d (List.mem_cons_self _ _)
    have h10' : ∀ e ∈ ds, e < 10 := fun e he => h10 e (List.mem_cons_of_mem _ he)
    simp only [List.map_cons, parseDigits, digitVal_digitChar d hd, ih h10', List.reverse_cons,
      Nat.ofDigits_append, List.length_reverse, Nat.ofDigits_singleton, List.length_cons,
      Option.some.injEq]
    ring

/-- What `Atoi` returns on a decimal numeral. -/
theorem Atoi_numeral (w : Nat) (neg : Bool) (ds : List Nat) (hne : ds ≠ [])
    (h10 : ∀ d ∈ ds, d < 10) :
    Atoi w ⟨numeral neg ds⟩ =
      if -(2 : Int) ^ (w - 1) ≤ numeralValue neg ds ∧ numeralValue neg ds < (2 : Int) ^ (w - 1)
      then .ok (numeralValue neg ds) else .error (Err.other "strconv.Atoi") := by
  have hB : (2 : Int) ^ (w - 1) = ((2 ^ (w - 1) : Nat) : Int) := by push_cast; rfl
  rw [hB]
  clear hB
  have hpos : 0 < 2 ^ (w - 1) := Nat.two_pow_pos _
  cases neg with
  | true =>
    have hbody : List.map Nat.digitChar ds ≠ [] := by simpa using hne
    simp only [Atoi, numeral, if_true, List.singleton_append, true_or, hbody, if_false,
      parseDigits_digits ds h10, numeralValue, Nat.zero_mul, Nat.zero_add]
    generalize Nat.ofDigits 10 ds.reverse = N
    generalize 2 ^ (w - 1) = B at hpos ⊢
    by_cases hgt : N > B
    · have : ¬ (-(B : Int) ≤ -(N : Int)) := by omega
      simp [hgt, this]
    · have h1 : -(B : Int) ≤ -(N : Int) := by omega
      have h2 : -(N : Int) < (B : Int) := by omega
      simp [hgt, h1, h2]
  | false =>
    obtain ⟨d, ds', rfl⟩ := List.exists_cons_of_ne_nil hne
    have hd : d < 10 := h10 d (List.mem_cons_self _ _)
    obtain ⟨hm, hp, _⟩ := digitChar_ne_sign d hd
    have hparse := parseDigits_digits (d :: ds') h10 0
    simp only [List.map_cons] at hparse
    simp only [Atoi, numeral, Bool.false_eq_true, if_false, List.nil_append, List.map_cons, hm, hp,
      or_self, hparse, numeralValue, Nat.zero_mul, Nat.zero_add]
    generalize Nat.ofDigits 10 (d :: ds').reverse = N
    generalize 2 ^ (w - 1) = B at hpos ⊢
    by_cases hge : N ≥ B
    · have : ¬ ((N : Int) < (B : Int)) := by omega
      simp [hge, this]
    · have h2 : (N : Int) < (B : Int) := by omega
      have h1 : -(B : Int) ≤ (N : Int) := by omega
      simp [hge, h1, h2]

theorem takeWhile_append_stop {α : Type} (p : α → Bool) (l rest : List α)
    (hl : ∀ c ∈ l, p c = true) (hrest : rest = [] ∨ ∃ c r, rest = c :: r ∧ p c = false) :
    (l ++ rest).takeWhile p = l := by
  induction l with
  | nil =>
    rcases hrest with rfl | ⟨c, r, rfl, hc⟩
    · rfl
    · simp [List.takeWhile, hc]
  | cons a l ih =>
    have ha : p a = true := hl a (List.mem_cons_self _ _)
    simp only [List.cons_append, List.takeWhile_cons, ha, if_true]
    rw [ih (fun c hc => hl c (List.mem_cons_of_mem _ hc))]

/-- The part before the first dot of a numeral followed by nothing or by a dot
is the numeral. -/
theorem splitDotHead_numeral (s : String) (neg : Bool) (ds : List Nat) (rest : List Char)
    (h10 : ∀ d ∈ ds, d < 10) (hrest : rest = [] ∨ rest.head? = some '.')
    (hstr : s.data = numeral neg ds ++ rest) :
    splitDotHead s = ⟨numeral neg ds⟩ := by
  unfold splitDotHead
  rw [hstr, takeWhile_append_stop]
  · intro c hc
    simp only [numeral, List.mem_append, List.mem_map] at hc
    rcases hc with hc | ⟨d, hd, rfl⟩
    · cases neg with
      | true =>
        simp only [if_true, List.mem_singleton] at hc
        subst hc
        decide
      | false => simp at hc
    · have := (digitChar_ne_sign d (h10 d hd)).2.2
      simpa using this
  · rcases hrest with h | h
    · exact Or.inl h
    · right
      cases rest with
      | nil => simp at h
      | cons c r =>
        simp only [List.head?_cons, Option.some.injEq] at h
        exact ⟨c, r, rfl, by simp [h]⟩

/-! ## Claims on `target.producers` -/

/-- C1: on fifty well-formed producer records `target.producers` does not return
42 updates: storing the record at index 42 in the 42-element slice panics. -/
theorem producers_fifty_records_panic :
    (∀ q ∈ fiftyProducers, WellFormed sampleEnv q) ∧
    fiftyProducers.length = 50 ∧
    ((targetWithProducers fiftyProducers).producers sampleEnv sampleClock).1
      = .panic "index out of range" := by
  refine ⟨?_, by decide, by decide⟩
  intro q hq
  obtain rfl : q = sampleProducer 1 "12345000000000.5000" := (List.mem_replicate.mp hq).2
  exact ⟨⟨_, rfl⟩, ⟨_, rfl⟩⟩

/-- C6: in a batch of at most 42 well-formed records, a record whose
`TotalVotes` is a decimal numeral of an integer `n` that fits the `int`,
followed by nothing or by a dot, gets `Votes = n / 10^9` rounded toward zero. -/
theorem producers_votes_truncated (env : Env) (t : target) (clock : Nat → Time)
    (recs : List Producer) (hrecs : t.api.GetFioProducers = .ok recs)
    (hlen : recs.length ≤ 42) (hwf : ∀ q ∈ recs, WellFormed env q)
    (i : Nat) (p : Producer) (hp : recs[i]? = some p)
    (neg : Bool) (ds : List Nat) (rest : List Char)
    (hne : ds ≠ []) (h10 : ∀ d ∈ ds, d < 10)
    (hrest : rest = [] ∨ rest.head? = some '.')
    (hstr : p.TotalVotes.data = numeral neg ds ++ rest)
    (hfit : -(2 : Int) ^ (env.intSize - 1) ≤ numeralValue neg ds ∧
      numeralValue neg ds < (2 : Int) ^ (env.intSize - 1)) :
    ∃ ups u, (t.producers env clock).1 = .ok ups ∧ ups[i]? = some (some u) ∧
      u.Votes = (numeralValue neg ds).tdiv (10 ^ 9) := by
  obtain ⟨ups, hok⟩ := producers_ok_of_wf env t clock recs hrecs hlen hwf
  obtain ⟨_, _, hspec⟩ := producers_ok_spec env t clock recs ups hrecs hok
  obtain ⟨lct, votes, _, hvotes, hu⟩ := hspec i p hp
  rw [splitDotHead_numeral p.TotalVotes neg ds rest h10 hrest hstr,
    Atoi_numeral env.intSize neg ds hne h10, if_pos hfit] at hvotes
  have hv : votes = numeralValue neg ds := by
    injection hvotes with hv
    exact hv.symm
  refine ⟨ups, _, hok, hu, ?_⟩
  simp only [expectedUpdate, hv]
  norm_num

/-- C6, witness: the two examples of the claim, in one batch. -/
theorem producers_votes_truncated_witness :
    ∃ ups u0 u1, ((targetWithProducers voteExamples).producers sampleEnv sampleClock).1 = .ok ups ∧
      ups[0]? = some (some u0) ∧ u0.Votes = 12345 ∧
      ups[1]? = some (some u1) ∧ u1.Votes = 1 := by
  have hwf : ∀ q ∈ voteExamples, WellFormed sampleEnv q := by
    intro q hq
    simp only [voteExamples, List.mem_cons, List.mem_singleton, List.not_mem_nil, or_false] at hq
    rcases hq with rfl | rfl <;> exact ⟨⟨_, rfl⟩, ⟨_, rfl⟩⟩
  obtain ⟨ups, u0, hok, h0, v0⟩ :=
    producers_votes_truncated sampleEnv (targetWithProducers voteExamples) sampleClock
      voteExamples rfl (by decide) hwf 0 (sampleProducer 1 "12345000000000.5000") rfl
      false [1, 2, 3, 4, 5, 0, 0, 0, 0, 0, 0, 0, 0, 0] ".5000".data (by decide) (by decide)
      (Or.inr rfl) (by decide) (by decide)
  obtain ⟨ups', u1, hok', h1, v1⟩ :=
    producers_votes_truncated sampleEnv (targetWithProducers voteExamples) sampleClock
      voteExamples rfl (by decide) hwf 1 (sampleProducer 1 "1999999999.9") rfl
      false [1, 9, 9, 9, 9, 9, 9, 9, 9, 9] ".9".data (by decide) (by decide)
      (Or.inr rfl) (by decide) (by decide)
  have hups : ups' = ups := by
    rw [hok] at hok'
    injection hok' with h
    exact h.symm
  subst hups
  exact ⟨ups', u0, u1, hok, h0, by rw [v0]; decide, h1, by rw [v1]; decide⟩

/-- C7: in a batch that `target.producers` converts, the update of the record at
index `i` has `Top = 1` when `i < 21` and the record's active flag is nonzero,
and `Top = 0` otherwise. -/
theorem producers_top21 (env : Env) (t : target) (clock : Nat → Time)
    (recs : List Producer) (ups : List (Option prodUpdate))
    (hrecs : t.api.GetFioProducers = .ok recs)
    (hok : (t.producers env clock).1 = .ok ups)
    (i : Nat) (p : Producer) (hp : recs[i]? = some p) :
    ∃ u, ups[i]? = some (some u) ∧ u.Top = if i < 21 ∧ p.IsActive ≠ 0 then 1 else 0 := by
  obtain ⟨_, _, hspec⟩ := producers_ok_spec env t clock recs ups hrecs hok
  obtain ⟨lct, votes, _, _, hu⟩ := hspec i p hp
  refine ⟨_, hu, ?_⟩
  simp only [expectedUpdate, gt_iff_lt, Nat.pos_iff_ne_zero]

/-- C7, witness: in a batch of 26 records, index 5 with active flag 0 and index
25 with active flag 1 both get `Top = 0`, and index 0 with active flag 1 gets
`Top = 1`. -/
theorem producers_top21_witness :
    ∃ ups u0 u5 u25,
      ((targetWithProducers twentySixProducers).producers sampleEnv sampleClock).1 = .ok ups ∧
      ups[0]? = some (some u0) ∧ u0.Top = 1 ∧
      ups[5]? = some (some u5) ∧ u5.Top = 0 ∧
      ups[25]? = some (some u25) ∧ u25.Top = 0 := by
  have hwf : ∀ q ∈ twentySixProducers, WellFormed sampleEnv q := by
    intro q hq
    simp only [twentySixProducers, List.mem_map] at hq
    obtain ⟨i, _, rfl⟩ := hq
    exact ⟨⟨_, rfl⟩, ⟨_, rfl⟩⟩
  obtain ⟨ups, hok⟩ :=
    producers_ok_of_wf sampleEnv (targetWithProducers twentySixProducers) sampleClock
      twentySixProducers rfl (by decide) hwf
  obtain ⟨u0, h0, t0⟩ :=
    producers_top21 sampleEnv (targetWithProducers twentySixProducers) sampleClock
      twentySixProducers ups rfl hok 0 (sampleProducer 1 "1999999999.9") (by decide)
  obtain ⟨u5, h5, t5⟩ :=
    producers_top21 sampleEnv (targetWithProducers twentySixProducers) sampleClock
      twentySixProducers ups rfl hok 5 (sampleProducer 0 "1999999999.9") (by decide)
  obtain ⟨u25, h25, t25⟩ :=
    producers_top21 sampleEnv (targetWithProducers twentySixProducers) sampleClock
      twentySixProducers ups rfl hok 25 (sampleProducer 1 "1999999999.9") (by decide)
  exact ⟨ups, u0, u5, u25, hok, h0, by rw [t0]; decide, h5, by rw [t5]; decide,
    h25, by rw [t25]; decide⟩

/-! ## Claims on the capability gates and on `target.net` -/

/-- C8: a target whose `hasNet` is false gets from `net` the error
`NotMonitoredErr{"net"}` and no update, with no remote call issued; the same
holds of `paused` and `runtime` when `hasProducer` is false (error for
`"producer"`) and of `db` when `hasDb` is false (error for `"db"`). -/
theorem not_monitored_without_call (t : target) :
    (t.hasNet = false → t.net = (.error (Err.NotMonitoredErr "net"), [])) ∧
    (t.hasProducer = false →
      t.paused = (.error (Err.NotMonitoredErr "producer"), []) ∧
      t.runtime = (.error (Err.NotMonitoredErr "producer"), [])) ∧
    (t.hasDb = false → t.db = (.error (Err.NotMonitoredErr "db"), [])) := by
  refine ⟨fun h => ?_, fun h => ⟨?_, ?_⟩, fun h => ?_⟩
  · simp [target.net, h]
  · simp [target.paused, h]
  · simp [target.runtime, h]
  · simp [target.db, h]

/-- C8, witness: the unprobed sample target, whose node would answer every
call. -/
theorem not_monitored_without_call_witness :
    sampleTarget.hasNet = false ∧ sampleTarget.hasProducer = false ∧
    sampleTarget.hasDb = false ∧
    sampleTarget.net = (.error (Err.NotMonitoredErr "net"), []) ∧
    sampleTarget.paused = (.error (Err.NotMonitoredErr "producer"), []) ∧
    sampleTarget.runtime = (.error (Err.NotMonitoredErr "producer"), []) ∧
    sampleTarget.db = (.error (Err.NotMonitoredErr "db"), []) :=
  ⟨rfl, rfl, rfl,
    (not_monitored_without_call sampleTarget).1 rfl,
    ((not_monitored_without_call sampleTarget).2.1 rfl).1,
    ((not_monitored_without_call sampleTarget).2.1 rfl).2,
    (not_monitored_without_call sampleTarget).2.2 rfl⟩

/-- The counters of `target.net` after the loop, from any starting values. -/
theorem netCount_eq (cs : List Connection) (a b c : Int) :
    netCount cs (a, b, c) =
      (a + (cs.countP (fun x => !x.Connecting) : Nat),
       b + (cs.countP (fun x => x.Connecting) : Nat),
       c + (cs.countP (fun x => x.Syncing) : Nat)) := by
  induction cs generalizing a b c with
  | nil => simp [netCount]
  | cons x cs ih =>
    cases x with
    | mk connecting syncing =>
      cases connecting <;> cases syncing <;>
        simp [netCount, ih, List.countP_cons, add_assoc, add_comm]

/-- C9: with `hasNet` set and the node returning the connections `conns`,
`target.net` returns an update whose `Disconnected` counts the connections with
`Connecting`, whose `Connected` counts those without, and whose `Syncing` counts
those with `Syncing`; so `Connected + Disconnected` is the number of
connections and `Syncing` is at most that number. -/
theorem net_counts (t : target) (conns : List Connection)
    (hnet : t.hasNet = true) (hconns : t.api.GetNetConnections = .ok conns) :
    ∃ u, t.net = (.ok u, [Rpc.GetNetConnections]) ∧
      u.Disconnected = (conns.countP (fun c => c.Connecting) : Nat) ∧
      u.Connected = (conns.countP (fun c => !c.Connecting) : Nat) ∧
      u.Syncing = (conns.countP (fun c => c.Syncing) : Nat) ∧
      u.Connected + u.Disconnected = (conns.length : Nat) ∧
      u.Syncing ≤ (conns.length : Nat) := by
  have hlen : conns.countP (fun c => !c.Connecting) + conns.countP (fun c => c.Connecting)
      = conns.length := by
    have := List.length_eq_countP_add_countP (fun c : Connection => c.Connecting) conns
    simp only [Bool.not_eq_true] at this
    have h2 : conns.countP (fun c => !c.Connecting)
        = conns.countP (fun c => decide (c.Connecting = false)) := by
      congr 1
      funext c
      cases c.Connecting <;> rfl
    omega
  have hval : t.net =
      (.ok { Connected := ((conns.countP (fun c => !c.Connecting) : Nat) : Int)
             Disconnected := ((conns.countP (fun c => c.Connecting) : Nat) : Int)
             Syncing := ((conns.countP (fun c => c.Syncing) : Nat) : Int)
             Endpoint := t.host
             Url := t.api.BaseURL }, [Rpc.GetNetConnections]) := by
    simp only [target.net, hnet, hconns, netCount_eq, Bool.not_true, Bool.false_eq_true,
      if_false, zero_add]
  refine ⟨_, hval, rfl, rfl, rfl, ?_, ?_⟩
  · show ((conns.countP (fun c => !c.Connecting) : Nat) : Int)
      + ((conns.countP (fun c => c.Connecting) : Nat) : Int) = (conns.length : Nat)
    exact_mod_cast hlen
  · show ((conns.countP (fun c => c.Syncing) : Nat) : Int) ≤ (conns.length : Nat)
    exact_mod_cast List.countP_le_length _

/-- C9, witness: three peers, one of them connecting, two of them syncing. -/
theorem net_counts_witness :
    ∃ u, (probedTarget threePeersApi).net = (.ok u, [Rpc.GetNetConnections]) ∧
      u.Disconnected = 1 ∧ u.Connected = 2 ∧ u.Syncing = 2 := by
  obtain ⟨u, h, hd, hc, hs, _, _⟩ :=
    net_counts (probedTarget threePeersApi)
      [⟨true, true⟩, ⟨false, true⟩, ⟨false, false⟩] rfl rfl
  exact ⟨u, h, by rw [hd]; decide, by rw [hc]; decide, by rw [hs]; decide⟩

/-! ## Claims on `init` and `updateHost` -/

/-- The `t.check` calls of `init` for each setting of the flags: the first
unset flag, in the order producer, db, net, opens the `switch`, and every later
probe runs whatever its own flag says. -/
theorem initChecks_table (f : Flags) :
    initChecks f =
      if f.skipProd = false then ["producer", "db", "net"]
      else if f.skipDb = false then ["db", "net"]
      else if f.skipNet = false then ["net"]
      else [] := by
  obtain ⟨a, b, c⟩ := f
  cases a <;> cases b <;> cases c <;> rfl

/-- C3: started with `-no-db` and neither of the other two flags, `init` still
calls `t.check("db")` (the `producer` clause falls through into it), and a node
that answers the probe ends with `hasDb` set. -/
theorem init_probes_db_despite_no_db :
    initChecks noDbFlags = ["producer", "db", "net"] ∧
    ∃ t calls, initTarget sampleDial sampleHostname noDbFlags "http://node1:8888"
        = (some t, calls) ∧
      t.hasDb = true ∧ Rpc.GetDBSize ∈ calls :=
  ⟨rfl, _, _, rfl, rfl, by decide⟩

/-- C2: when `t.net()` fails with a transport error, `updateHost` logs it and
returns: `paused`, `runtime`, `producers`, `schedule` and `db` are not fetched,
although the node would answer each of them.  A transport error of
`t.paused()` ends the task in the same way. -/
theorem updateHost_net_error_aborts :
    updateHost sampleEnv (probedTarget netFailingApi) sampleClock =
      [ Ev.fetch "info", Ev.rpc Rpc.GetInfo, Ev.send (Msg.info sampleInfo),
        Ev.fetch "net", Ev.rpc Rpc.GetNetConnections,
        Ev.log (Err.other "connection refused") ] ∧
    updateHost sampleEnv (probedTarget pausedFailingApi) sampleClock =
      [ Ev.fetch "info", Ev.rpc Rpc.GetInfo, Ev.send (Msg.info sampleInfo),
        Ev.fetch "net", Ev.rpc Rpc.GetNetConnections,
        Ev.send (Msg.net ⟨0, 1, 0, "node1", "http://node1:8888"⟩),
        Ev.fetch "paused", Ev.rpc Rpc.IsProducerPaused,
        Ev.log (Err.other "connection refused") ] := by
  constructor <;> decide

/-- The sibling path: a transport error of `t.runtime()` is logged and the task
goes on to `producers`, `schedule` and `db`. -/
theorem updateHost_runtime_error_goes_on :
    updateHost sampleEnv (probedTarget runtimeFailingApi) sampleClock =
      [ Ev.fetch "info", Ev.rpc Rpc.GetInfo, Ev.send (Msg.info sampleInfo),
        Ev.fetch "net", Ev.rpc Rpc.GetNetConnections,
        Ev.send (Msg.net ⟨0, 1, 0, "node1", "http://node1:8888"⟩),
        Ev.fetch "paused", Ev.rpc Rpc.IsProducerPaused,
        Ev.send (Msg.paused ⟨1, "node1", "http://node1:8888"⟩),
        Ev.fetch "runtime", Ev.rpc Rpc.GetRuntimeOptions,
        Ev.log (Err.other "connection refused"),
        Ev.fetch "producers", Ev.rpc Rpc.GetFioProducers,
        Ev.fetch "schedule", Ev.rpc Rpc.GetProducerSchedule,
        Ev.send (Msg.sched ⟨7, 7, 0, "node1", "http://node1:8888"⟩),
        Ev.fetch "db", Ev.rpc Rpc.GetDBSize,
        Ev.send (Msg.db ⟨2000, 1000, "node1", "http://node1:8888"⟩) ] := by
  decide

/-! ## Claims on the endpoint cache -/

theorem before_ten_minutes (u now : Int) :
    Time.Before u (Time.Add now (-10 * Minute)) = decide (u < now - 10 * 60 * 1000000000) := by
  have e : now + -10 * (60 * 1000000000) = now - 10 * 60 * 1000000000 := by ring
  simp only [Time.Before, Time.Add, Minute, e]

theorem mapGet_eq_none_of_not_mem (m : EndpointMap) (k : String)
    (h : k ∉ m.map Prod.fst) : mapGet m k = none := by
  induction m with
  | nil => rfl
  | cons kv m ih =>
    obtain ⟨k', v⟩ := kv
    simp only [List.map_cons, List.mem_cons, not_or] at h
    have hne : ¬ k' = k := fun e => h.1 e.symm
    simp only [mapGet, hne, if_false]
    exact ih h.2

theorem filter_ne_of_not_mem (m : EndpointMap) (k : String) (h : k ∉ m.map Prod.fst) :
    m.filter (fun kv => decide (kv.1 ≠ k)) = m := by
  rw [List.filter_eq_self]
  intro kv hkv
  have : kv.1 ≠ k := fun e => h (e ▸ List.mem_map_of_mem Prod.fst hkv)
  simpa using this

theorem mapDelete_middle (pre todo : EndpointMap) (k : String) (v : endpointInfo)
    (h : KeysNodup (pre ++ (k, v) :: todo)) :
    mapDelete (pre ++ (k, v) :: todo) k = pre ++ todo := by
  unfold KeysNodup at h
  rw [List.map_append, List.map_cons, List.nodup_append] at h
  obtain ⟨_, h2, h3⟩ := h
  have hpre : k ∉ pre.map Prod.fst := fun hk => h3 hk (List.mem_cons_self _ _)
  have htodo : k ∉ todo.map Prod.fst := (List.nodup_cons.mp h2).1
  unfold mapDelete
  rw [List.filter_append, List.filter_cons]
  simp only [ne_eq, not_true_eq_false, decide_False, Bool.false_eq_true, if_false]
  have e1 := filter_ne_of_not_mem pre k hpre
  have e2 := filter_ne_of_not_mem todo k htodo
  simp only [ne_eq] at e1 e2
  rw [e1, e2]

theorem keysNodup_drop_middle (pre todo : EndpointMap) (kv : String × endpointInfo)
    (h : KeysNodup (pre ++ kv :: todo)) : KeysNodup (pre ++ todo) := by
  unfold KeysNodup at h ⊢
  refine h.sublist ?_
  exact List.Sublist.map _ (List.Sublist.append_left (List.sublist_cons_self _ _) _)

/-- With a clock that stands still, the loop of `scrub` keeps the part of the
map already visited and filters the part still to be visited. -/
theorem scrubLoop_const (now : Time) :
    ∀ (todo pre : EndpointMap) (i : Nat), KeysNodup (pre ++ todo) →
      scrubLoop (fun _ => now) i todo (pre ++ todo) = pre ++ todo.filter (keeps now) := by
  intro todo
  induction todo with
  | nil => intro pre i _; simp [scrubLoop]
  | cons kv todo ih =>
    intro pre i h
    obtain ⟨k, v⟩ := kv
    by_cases hstale : v.updated.Before (now.Add (-10 * Minute)) = true
    · simp only [scrubLoop, hstale, if_true]
      have hk : keeps now (k, v) = false := by simp only [keeps, hstale]; rfl
      rw [mapDelete_middle pre todo k v h, ih pre (i + 1) (keysNodup_drop_middle pre todo _ h)]
      simp only [List.filter_cons, hk, Bool.false_eq_true, if_false]
    · simp only [Bool.not_eq_true] at hstale
      simp only [scrubLoop, hstale, Bool.false_eq_true, if_false]
      have hk : keeps now (k, v) = true := by
        simp only [keeps, hstale]
        rfl
      have e : pre ++ (k, v) :: todo = (pre ++ [(k, v)]) ++ todo := by simp
      rw [e, ih (pre ++ [(k, v)]) (i + 1) (e ▸ h)]
      simp only [List.filter_cons, hk, if_true, List.append_assoc, List.singleton_append]

theorem scrub_const_entries (ep : endpoints) (now : Time) (h : KeysNodup ep.entries) :
    (ep.scrub (fun _ => now)).entries = ep.entries.filter (keeps now) := by
  have := scrubLoop_const now ep.entries [] 0 (by simpa using h)
  simpa [endpoints.scrub] using this

theorem keysNodup_filter (m : EndpointMap) (p : String × endpointInfo → Bool)
    (h : KeysNodup m) : KeysNodup (m.filter p) := by
  unfold KeysNodup at h ⊢
  exact h.sublist (List.Sublist.map _ (List.filter_sublist _))

theorem mapGet_filter (m : EndpointMap) (p : String × endpointInfo → Bool) (k : String)
    (h : KeysNodup m) :
    mapGet (m.filter p) k =
      match mapGet m k with
      | some e => if p (k, e) then some e else none
      | none => none := by
  induction m with
  | nil => rfl
  | cons kv m ih =>
    obtain ⟨k', v⟩ := kv
    have hm : KeysNodup m := (List.nodup_cons.mp h).2
    have hk' : k' ∉ m.map Prod.fst := (List.nodup_cons.mp h).1
    by_cases hk : k' = k
    · subst hk
      by_cases hp : p (k', v) = true
      · simp [List.filter_cons, hp, mapGet]
      · have hnone : mapGet (m.filter p) k' = none :=
          mapGet_eq_none_of_not_mem _ _
            (fun hmem => hk' ((List.Sublist.map _ (List.filter_sublist _)).subset hmem))
        simp [List.filter_cons, hp, mapGet, hnone]
    · by_cases hp : p (k', v) = true
      · simp only [List.filter_cons, hp, if_true, mapGet, hk, if_false]
        exact ih hm
      · simp only [List.filter_cons, hp, if_false, mapGet, hk]
        exact ih hm

/-- C5: on a map (a list without repeated keys) and a clock standing at
`now`, `scrub` leaves a cache in which a key is absent when it was absent or
its entry was updated strictly before `now` minus ten minutes, and otherwise
has its entry unchanged; the result is a map, and scrubbing it again at `now`
changes nothing. -/
theorem scrub_removes_exactly_stale (ep : endpoints) (now : Time)
    (hmap : KeysNodup ep.entries) :
    (∀ k, (ep.scrub (fun _ => now)).get k =
        match ep.get k with
        | some e => if e.updated < now - 10 * 60 * 1000000000 then none else some e
        | none => none) ∧
    KeysNodup (ep.scrub (fun _ => now)).entries ∧
    (ep.scrub (fun _ => now)).scrub (fun _ => now) = ep.scrub (fun _ => now) := by
  have hent := scrub_const_entries ep now hmap
  have hnodup : KeysNodup (ep.scrub (fun _ => now)).entries := by
    rw [hent]
    exact keysNodup_filter _ _ hmap
  refine ⟨?_, hnodup, ?_⟩
  · intro k
    simp only [endpoints.get, hent, mapGet_filter _ _ k hmap]
    cases mapGet ep.entries k with
    | none => rfl
    | some e =>
      simp only [keeps, before_ten_minutes]
      by_cases hlt : e.updated < now - 10 * 60 * 1000000000
      · simp only [hlt, decide_True, Bool.not_true, Bool.false_eq_true, if_false, if_true]
      · simp only [hlt, decide_False, Bool.not_false, if_true, if_false]
  · have h2 := scrub_const_entries (ep.scrub (fun _ => now)) now hnodup
    rw [hent, List.filter_filter] at h2
    have : (ep.scrub (fun _ => now)).scrub (fun _ => now)
        = ⟨((ep.scrub (fun _ => now)).scrub (fun _ => now)).entries⟩ := rfl
    rw [this, h2]
    have : ep.scrub (fun _ => now) = ⟨(ep.scrub (fun _ => now)).entries⟩ := rfl
    rw [this, hent]
    simp

/-- C5, witness: of three entries eleven, ten and one minute old, the scrub
removes the first only; a second scrub returns the same cache. -/
theorem scrub_removes_exactly_stale_witness :
    KeysNodup sampleCache.entries ∧
    (sampleCache.scrub (fun _ => scrubTime)).get "http://old:8888" = none ∧
    (sampleCache.scrub (fun _ => scrubTime)).get "http://edge:8888"
      = some ⟨"abcd", "v3.5.0", 1614556260000000000⟩ ∧
    (sampleCache.scrub (fun _ => scrubTime)).get "http://fresh:8888"
      = some ⟨"abcd", "v3.5.1", 1614556800000000000⟩ ∧
    (sampleCache.scrub (fun _ => scrubTime)).scrub (fun _ => scrubTime)
      = sampleCache.scrub (fun _ => scrubTime) := by
  have h := scrub_removes_exactly_stale sampleCache scrubTime (by decide)
  refine ⟨by decide, ?_, ?_, ?_, h.2.2⟩
  · rw [h.1]; decide
  · rw [h.1]; decide
  · rw [h.1]; decide

/-! ## Claims on the aggregator loops -/

/-- C4, as the claim states it, fails for the info aggregator: `processInfo`
looks nothing up, so an update whose URL the cache does not know is written to
the three info gauges (and enters the cache). -/
theorem processInfo_writes_unknown_url :
    emptyRegistry.ep.get sampleInfo.Url = none ∧
    (processInfo sampleClock 0 [Select.recv (some sampleInfo)] emptyRegistry).1.samples =
      [ ⟨"fio_info_head_block", sampleLabels, 1000⟩,
        ⟨"fio_info_lib", sampleLabels, 990⟩,
        ⟨"fio_info_head_lag", sampleLabels, 2⟩ ] := by
  constructor <;> decide

/-- A lookup after `m[k] = v` at the key just set. -/
theorem mapGet_mapSet_self (m : EndpointMap) (k : String) (v : endpointInfo) :
    mapGet (mapSet m k v) k = some v := by
  simp only [mapSet, mapGet, if_true]

/-- A lookup after `m[k] = v` at any other key. -/
theorem mapGet_mapSet_other (m : EndpointMap) (k k1 : String) (v : endpointInfo)
    (h : k1 ≠ k) : mapGet (mapSet m k v) k1 = mapGet m k1 := by
  have hne : ¬ k = k1 := fun e => h e.symm
  simp only [mapSet, mapGet, hne, if_false]
  induction m with
  | nil => rfl
  | cons kv m ih =>
    obtain ⟨k2, v2⟩ := kv
    by_cases hk : k2 = k
    · subst hk
      simp only [mapDelete, List.filter_cons, ne_eq, not_true_eq_false, decide_False,
        Bool.false_eq_true, if_false, mapGet, hne]
      exact ih
    · by_cases hk1 : k2 = k1
      · subst hk1
        simp only [mapDelete, List.filter_cons, ne_eq, hk, not_false_eq_true, decide_True,
          if_true, mapGet]
      · simp only [mapDelete, List.filter_cons, ne_eq, hk, not_false_eq_true, decide_True,
          if_true, mapGet, hk1, if_false]
        exact ih

/-- C4, amended: for each of the six aggregators that consult the cache (net,
paused, runtime, producer, schedule, db), an update whose URL has no cache
entry leaves the samples and the cache as they were, and the loop goes on with
the following `select` outcomes from that state.  The info aggregator does not
consult the cache: for every update, whatever the cache holds, it appends its
three samples with the labels carried by the update, sets the cache entry of
the update's URL to the update's chain id and version stamped with the clock
reading, leaves every other cache entry and the log as they were, and goes on
with the following outcomes. -/
theorem aggregators_on_unknown_url (r : Registry) :
    (∀ (u : netUpdate) (evs : List (Select netUpdate)), r.ep.get u.Url = none →
      ∃ r1, r1.samples = r.samples ∧ r1.ep = r.ep ∧
        processNet (Select.recv (some u) :: evs) r = processNet evs r1) ∧
    (∀ (u : paused) (evs : List (Select paused)), r.ep.get u.Url = none →
      ∃ r1, r1.samples = r.samples ∧ r1.ep = r.ep ∧
        processPaused (Select.recv (some u) :: evs) r = processPaused evs r1) ∧
    (∀ (u : runUpdate) (evs : List (Select runUpdate)), r.ep.get u.Url = none →
      ∃ r1, r1.samples = r.samples ∧ r1.ep = r.ep ∧
        processRun (Select.recv (some u) :: evs) r = processRun evs r1) ∧
    (∀ (u : prodUpdate) (evs : List (Select prodUpdate)), r.ep.get u.Url = none →
      ∃ r1, r1.samples = r.samples ∧ r1.ep = r.ep ∧
        processProd (Select.recv (some u) :: evs) r = processProd evs r1) ∧
    (∀ (u : schedUpdate) (evs : List (Select schedUpdate)), r.ep.get u.Url = none →
      ∃ r1, r1.samples = r.samples ∧ r1.ep = r.ep ∧
        processSched (Select.recv (some u) :: evs) r = processSched evs r1) ∧
    (∀ (u : dbUpdate) (evs : List (Select dbUpdate)), r.ep.get u.Url = none →
      ∃ r1, r1.samples = r.samples ∧ r1.ep = r.ep ∧
        processDb (Select.recv (some u) :: evs) r = processDb evs r1) ∧
    (∀ (u : infoUpdate) (evs : List (Select infoUpdate)) (clock : Nat → Time) (i : Nat),
      ∃ r1,
        r1.samples = r.samples ++
          [ ⟨"fio_info_head_block", ⟨u.ChainId, u.Version, u.Endpoint, none⟩, u.Head⟩,
            ⟨"fio_info_lib", ⟨u.ChainId, u.Version, u.Endpoint, none⟩, u.Lib⟩,
            ⟨"fio_info_head_lag", ⟨u.ChainId, u.Version, u.Endpoint, none⟩, u.Delta⟩ ] ∧
        r1.ep.get u.Url = some ⟨u.ChainId, u.Version, clock i⟩ ∧
        (∀ k, k ≠ u.Url → r1.ep.get k = r.ep.get k) ∧
        r1.log = r.log ∧
        processInfo clock i (Select.recv (some u) :: evs) r
          = processInfo clock (i + 1) evs r1) := by
  refine ⟨?_, ?_, ?_, ?_, ?_, ?_, ?_⟩
  · intro u evs h
    exact ⟨r.println ("could not get host info for net update: " ++ u.Url), rfl, rfl,
      by simp only [processNet, h]⟩
  · intro u evs h
    exact ⟨r.println ("could not get host info for runtime update: " ++ u.Url), rfl, rfl,
      by simp only [processPaused, h]⟩
  · intro u evs h
    exact ⟨r.println ("could not get host info for runtime update: " ++ u.Url), rfl, rfl,
      by simp only [processRun, h]⟩
  · intro u evs h
    exact ⟨r.println ("could not get host info for producer update: " ++ u.Endpoint), rfl, rfl,
      by simp only [processProd, h]⟩
  · intro u evs h
    exact ⟨r.println ("could not get host info for schedule update: " ++ u.Url), rfl, rfl,
      by simp only [processSched, h]⟩
  · intro u evs h
    exact ⟨r.println ("could not get host info for runtime update: " ++ u.Url), rfl, rfl,
      by simp only [processDb, h]⟩
  · intro u evs clock i
    refine ⟨(Registry.mk (r.ep.set u.Url ⟨u.ChainId, u.Version, clock i⟩ (clock i))
          r.samples r.log).write
        [ ⟨"fio_info_head_block", ⟨u.ChainId, u.Version, u.Endpoint, none⟩, u.Head⟩,
          ⟨"fio_info_lib", ⟨u.ChainId, u.Version, u.Endpoint, none⟩, u.Lib⟩,
          ⟨"fio_info_head_lag", ⟨u.ChainId, u.Version, u.Endpoint, none⟩, u.Delta⟩ ],
      ?_, ?_, ?_, ?_, by simp only [processInfo]⟩
    · rfl
    · exact mapGet_mapSet_self _ _ _
    · intro k hk
      exact mapGet_mapSet_other _ _ _ _ hk
    · rfl

/-- C4, witness: on the empty cache each of the six aggregators drops an update
of the sample endpoint and then handles a nil update, and no sample is written;
the info aggregator writes the three samples of its update and the cache then
knows the sample URL. -/
theorem aggregators_on_unknown_url_witness :
    emptyRegistry.ep.get "http://node1:8888" = none ∧
    (processNet [Select.recv (some sampleNet), Select.recv none] emptyRegistry).1.samples = [] ∧
    (processPaused [Select.recv (some samplePaused), Select.recv none] emptyRegistry).1.samples
      = [] ∧
    (processRun [Select.recv (some sampleRun), Select.recv none] emptyRegistry).1.samples = [] ∧
    (processProd [Select.recv (some sampleProd), Select.recv none] emptyRegistry).1.samples = [] ∧
    (processSched [Select.recv (some sampleSched), Select.recv none] emptyRegistry).1.samples
      = [] ∧
    (processDb [Select.recv (some sampleDb), Select.recv none] emptyRegistry).1.samples = [] ∧
    (processInfo sampleClock 0 [Select.recv (some sampleInfo), Select.recv none]
        emptyRegistry).1.samples =
      [ ⟨"fio_info_head_block", sampleLabels, 1000⟩,
        ⟨"fio_info_lib", sampleLabels, 990⟩,
        ⟨"fio_info_head_lag", sampleLabels, 2⟩ ] ∧
    (processInfo sampleClock 0 [Select.recv (some sampleInfo), Select.recv none]
        emptyRegistry).1.ep.get "http://node1:8888"
      = some ⟨"abcd", "v3.5.0", 1614556860000000000⟩ := by
  have h := aggregators_on_unknown_url emptyRegistry
  refine ⟨rfl, ?_, ?_, ?_, ?_, ?_, ?_, ?_, ?_⟩
  · obtain ⟨r1, hs, _, e⟩ := h.1 sampleNet [Select.recv none] rfl
    rw [e]
    exact hs
  · obtain ⟨r1, hs, _, e⟩ := h.2.1 samplePaused [Select.recv none] rfl
    rw [e]
    exact hs
  · obtain ⟨r1, hs, _, e⟩ := h.2.2.1 sampleRun [Select.recv none] rfl
    rw [e]
    exact hs
  · obtain ⟨r1, hs, _, e⟩ := h.2.2.2.1 sampleProd [Select.recv none] rfl
    rw [e]
    exact hs
  · obtain ⟨r1, hs, _, e⟩ := h.2.2.2.2.1 sampleSched [Select.recv none] rfl
    rw [e]
    exact hs
  · obtain ⟨r1, hs, _, e⟩ := h.2.2.2.2.2.1 sampleDb [Select.recv none] rfl
    rw [e]
    exact hs
  · obtain ⟨r1, hs, _, _, _, e⟩ :=
      h.2.2.2.2.2.2 sampleInfo [Select.recv none] sampleClock 0
    rw [e]
    simp only [processInfo]
    exact hs
  · obtain ⟨r1, _, hg, _, _, e⟩ :=
      h.2.2.2.2.2.2 sampleInfo [Select.recv none] sampleClock 0
    rw [e]
    simp only [processInfo]
    exact hg

/-- The loop of `processInfo` ends at the `select` that observes the
cancellation: nothing after it is looked at. -/
theorem processInfo_done_returns (clock : Nat → Time) (i : Nat)
    (evs : List (Select infoUpdate)) (r : Registry) :
    processInfo clock i (Select.done :: evs) r
      = (r.println "processInfo routine exiting", true) := by
  simp only [processInfo]

/-- The six other loops log at the `select` that observes the cancellation and
go on with the following outcomes. -/
theorem other_loops_done_go_on (r : Registry) :
    (∀ evs, processNet (Select.done :: evs) r
      = processNet evs (r.println "processNet routine exiting")) ∧
    (∀ evs, processPaused (Select.done :: evs) r
      = processPaused evs (r.println "processRun routine exiting")) ∧
    (∀ evs, processRun (Select.done :: evs) r
      = processRun evs (r.println "processRun routine exiting")) ∧
    (∀ evs, processProd (Select.done :: evs) r
      = processProd evs (r.println "processProd routine exiting")) ∧
    (∀ evs, processSched (Select.done :: evs) r
      = processSched evs (r.println "processSched routine exiting")) ∧
    (∀ evs, processDb (Select.done :: evs) r
      = processDb evs (r.println "processRun routine exiting")) := by
  refine ⟨?_, ?_, ?_, ?_, ?_, ?_⟩ <;> intro evs
  · simp only [processNet]
  · simp only [processPaused]
  · simp only [processRun]
  · simp only [processProd]
  · simp only [processSched]
  · simp only [processDb]

/-- C10: `processNet` does not stop at the `select` that observes the
cancellation: with the outcomes "cancelled, cancelled, update" it observes the
signal twice, then writes the update to the gauges, and has not returned.  The
same holds of `processDb`. -/
theorem processNet_runs_after_cancellation :
    processNet [Select.done, Select.done, Select.recv (some sampleNet)] cachedRegistry =
      ({ ep := cachedRegistry.ep
         samples := [ ⟨"fio_net_connected_peers", sampleLabels, 2⟩,
                      ⟨"fio_net_disconnected_peers", sampleLabels, 1⟩,
                      ⟨"fio_net_syncing_peers", sampleLabels, 2⟩ ]
         log := ["processNet routine exiting", "processNet routine exiting"] }, false) ∧
    processDb [Select.done, Select.done, Select.recv (some sampleDb)] cachedRegistry =
      ({ ep := cachedRegistry.ep
         samples := [ ⟨"fio_db_free_bytes", sampleLabels, 2000⟩,
                      ⟨"fio_db_used_bytes", sampleLabels, 1000⟩ ]
         log := ["processRun routine exiting", "processRun routine exiting"] }, false) := by
  constructor <;> decide

end Exporter
